import Mathlib

/-!
Shallow embedding of the CO₂-Charts application (src/main.py) and proofs about
its data-joining and derived-series logic.

Modelling conventions:
* Python dicts are association lists with insertion-order semantics: updating an
  existing key keeps its position, a new key is appended at the end.  `dget` is
  dictionary lookup, `dset` is `d[k] = v`, `dset2` is the two-level
  `d[c][y] = v` (creating the inner dict first, as the source does).
* Python `float` values are modelled as exact rationals `ℚ`; the numeric facts
  stated below are exactly representable in binary floating point as well.
* Absent cells (`None`) are `Option.none`.
* `int(s)` / `float(s)` are modelled by `pyParseInt` / `pyParseFloat` over the
  character list of the string: optional surrounding whitespace, optional sign,
  decimal digits (and a single dot for floats).  Exotic float spellings
  (exponents, `inf`, `nan`, digit underscores) are not modelled; no claim
  depends on them.
* The matplotlib/streamlit rendering is out of scope; each `plot_*` function is
  embedded as the list of `(country, points)` series it passes to `ax.plot`,
  in loop order.  `plot_co2_emission_changes` additionally returns the list of
  countries for which its else-branch writes a warning.
  `plot_co2_emission_change_change` subtracts optional values without a `None`
  guard, so it is embedded in `Except`: a `None` operand raises `TypeError`
  exactly as the Python subtraction does.
-/

abbrev Year := Int

abbrev Series (α : Type) := List (Year × α)

abbrev PopTable := List (String × Series (Option Int))

abbrev EmisTable := List (String × Series (Option ℚ))

/-- Dictionary lookup: `d[k]` as an `Option` (Python `d.get(k)` / `k in d`). -/
def dget {K V : Type} [DecidableEq K] : List (K × V) → K → Option V
  | [], _ => none
  | (k, v) :: rest, k' => if k = k' then some v else dget rest k'

/-- Dictionary assignment `d[k] = v`: update in place, or append a new key. -/
def dset {K V : Type} [DecidableEq K] : List (K × V) → K → V → List (K × V)
  | [], k, v => [(k, v)]
  | (k', v') :: rest, k, v =>
    if k' = k then (k, v) :: rest else (k', v') :: dset rest k v

/-- Two-level assignment `d[c][y] = v`, creating the inner dict when missing
(the source's `if country not in dict: dict[country] = {}` followed by the
assignment). -/
def dset2 {α : Type} (d : List (String × Series α)) (c : String) (y : Year)
    (v : α) : List (String × Series α) :=
  match dget d c with
  | none => dset d c [(y, v)]
  | some s => dset d c (dset s y v)

/-- Two-level lookup `d[c][y]`. -/
def dget2 {α : Type} (d : List (String × Series α)) (c : String) (y : Year) :
    Option α :=
  (dget d c).bind (fun s => dget s y)

/-- Whitespace characters stripped by Python's `str.strip()` (ASCII part). -/
def isPySpace (c : Char) : Bool :=
  c = ' ' || c = '\t' || c = '\n' || c = '\r' || c = '\x0b' || c = '\x0c'

/-- Strip leading and trailing whitespace from a character list. -/
def stripChars (cs : List Char) : List Char :=
  ((cs.dropWhile isPySpace).reverse.dropWhile isPySpace).reverse

/-- Python `str.strip()`. -/
def pyStrip (s : String) : String := String.mk (stripChars s.data)

/-- Value of a digit string (unchecked). -/
def natOfDigits (cs : List Char) : Nat :=
  cs.foldl (fun a c => a * 10 + (c.toNat - 48)) 0

/-- Every character is a decimal digit. -/
def allDigits (cs : List Char) : Bool := cs.all (fun c => c.isDigit)

/-- A nonempty all-digit string's value, `none` otherwise. -/
def digitsToNat (cs : List Char) : Option Nat :=
  if !cs.isEmpty && allDigits cs then some (natOfDigits cs) else none

/-- Python `int(s)`: optional whitespace, optional sign, decimal digits;
`none` models `ValueError`. -/
def pyParseInt (s : String) : Option Int :=
  match stripChars s.data with
  | '-' :: rest => (digitsToNat rest).map (fun n => -(n : Int))
  | '+' :: rest => (digitsToNat rest).map (fun n => (n : Int))
  | cs => (digitsToNat cs).map (fun n => (n : Int))

/-- CO2Charts._parse_int from the source: strip, empty means `None`, otherwise
`int(value)` with `ValueError` mapped to `None`. -/
def _parse_int (value : String) : Option Int :=
  let v := pyStrip value
  if v.data.isEmpty then none else pyParseInt v

/-- Split a character list at the first dot, if any. -/
def breakDot : List Char → List Char × Option (List Char)
  | [] => ([], none)
  | c :: rest =>
    if c = '.' then ([], some rest)
    else
      let p := breakDot rest
      (c :: p.1, p.2)

/-- Magnitude part of Python `float(s)`: `digits`, `digits.`, `.digits` or
`digits.digits`. -/
def pyParseFloatMag (cs : List Char) : Option ℚ :=
  match breakDot cs with
  | (ip, none) =>
    if !ip.isEmpty && allDigits ip then some ((natOfDigits ip : ℚ)) else none
  | (ip, some fp) =>
    if (!ip.isEmpty || !fp.isEmpty) && allDigits ip && allDigits fp then
      some (OfScientific.ofScientific (natOfDigits (ip ++ fp)) true fp.length)
    else none

/-- Python `float(s)` (fixed-point decimal forms); `none` models `ValueError`. -/
def pyParseFloat (s : String) : Option ℚ :=
  match stripChars s.data with
  | '-' :: rest => (pyParseFloatMag rest).map (fun q => -q)
  | '+' :: rest => pyParseFloatMag rest
  | cs => pyParseFloatMag cs

/-- CO2Charts._parse_float from the source. -/
def _parse_float (value : String) : Option ℚ :=
  let v := pyStrip value
  if v.data.isEmpty then none else pyParseFloat v

/-- A row of the population CSV (all cells as raw strings). -/
structure PopRow where
  country : String
  year : String
  population : String
deriving DecidableEq

/-- A row of the emissions CSV (all cells as raw strings). -/
structure EmisRow where
  entity : String
  year : String
  emissions : String
deriving DecidableEq

/-- One loop iteration of CO2Charts.lese_energy: skip the row on an invalid
year, otherwise record the optionally-parsed population. -/
def lese_energy_step (bev : PopTable) (row : PopRow) : PopTable :=
  match pyParseInt row.year with
  | none => bev
  | some year => dset2 bev row.country year ( _parse_int row.population)

/-- CO2Charts.lese_energy: fold the step over the rows of the source. -/
def lese_energy (rows : List PopRow) : PopTable :=
  rows.foldl lese_energy_step []

/-- The `countries` argument of lese_emissionen: a single string or a list. -/
inductive CountriesArg where
  | one (c : String)
  | many (cs : List String)

/-- The `isinstance(countries, str)` normalisation at the top of
lese_emissionen. -/
def countriesOf : CountriesArg → List String
  | .one c => [c]
  | .many cs => cs

/-- One loop iteration of CO2Charts.lese_emissionen: rows whose entity is not
requested are ignored; otherwise same year/value handling as lese_energy. -/
def lese_emissionen_step (countries : List String) (d : EmisTable)
    (row : EmisRow) : EmisTable :=
  if row.entity ∈ countries then
    match pyParseInt row.year with
    | none => d
    | some year => dset2 d row.entity year ( _parse_float row.emissions)
  else d

/-- The dict comprehension `{country: {} for country in countries}`. -/
def emisInit (cs : List String) : EmisTable :=
  cs.foldl (fun d c => dset d c []) []

/-- CO2Charts.lese_emissionen: start from `{c : {} for c in countries}` and
fold the step over the rows of the source. -/
def lese_emissionen (arg : CountriesArg) (rows : List EmisRow) : EmisTable :=
  rows.foldl (lese_emissionen_step (countriesOf arg))
    (emisInit (countriesOf arg))

/-- CO2Charts.get_available_countries: `sorted(set of entities)`. -/
def get_available_countries (rows : List EmisRow) : List String :=
  List.insertionSort (fun a b => a ≤ b) ((rows.map (fun r => r.entity)).dedup)

/-- The `sorted(d.keys())` idiom of the plot functions. -/
def sortKeys {α : Type} (s : Series α) : List Year :=
  List.insertionSort (fun a b => a ≤ b) (s.map (fun p => p.1))

/-- Python `series.get(year)` / `series[year]` for a present key: a missing
key and a stored `None` both give `none`. -/
def lookupVal {α : Type} (s : Series (Option α)) (y : Year) : Option α :=
  (dget s y).getD none

/-- The `v if v is not None else 0` coercion of plot_co2_emission_changes. -/
def coerce0 (v : Option ℚ) : ℚ := v.getD 0

/-- The comprehension `[xs[i] - xs[i-1] for i in range(1, len(xs))]`. -/
def diffs : List ℚ → List ℚ
  | a :: b :: rest => (b - a) :: diffs (b :: rest)
  | _ => []

/-- Python subtraction on optional floats: a `None` operand raises
`TypeError`. -/
def pySub : Option ℚ → Option ℚ → Except String ℚ
  | some a, some b => Except.ok (a - b)
  | _, _ => Except.error "TypeError"

/-- The comprehension `[xs[i] - xs[i-1] for i in range(1, len(xs))]` over
optional values, failing at the first `None` operand as Python does. -/
def diffsOpt : List (Option ℚ) → Except String (List ℚ)
  | a :: b :: rest => do
    let d ← pySub b a
    let ds ← diffsOpt (b :: rest)
    pure (d :: ds)
  | _ => Except.ok []

/-- The `sorted(set(a) & set(b))` idiom of plot_absolut_co2_emissions. -/
def interKeys (a b : List Year) : List Year :=
  List.insertionSort (fun x y => x ≤ y) ((a.filter (fun y => y ∈ b)).dedup)

/-- plot_co2_emission_per_capita: for each selected country present in the
table, plot its sorted years against the stored (optional) values. -/
def plot_co2_emission_per_capita (co2_data : EmisTable) :
    List (String × String) → List (String × Series (Option ℚ))
  | [] => []
  | (country, _color) :: rest =>
    match dget co2_data country with
    | some series =>
      let years := sortKeys series
      let emissions := years.map (fun year => lookupVal series year)
      (country, years.zip emissions) :: plot_co2_emission_per_capita co2_data rest
    | none => plot_co2_emission_per_capita co2_data rest

/-- plot_absolut_co2_emissions: for each country present in both tables, plot
the sorted intersection of the year-key sets; the value is the product when
both operands are present and `None` otherwise. -/
def plot_absolut_co2_emissions (co2_data : EmisTable) (pop_data : PopTable) :
    List (String × String) → List (String × Series (Option ℚ))
  | [] => []
  | (country, _color) :: rest =>
    match dget co2_data country, dget pop_data country with
    | some es, some ps =>
      let years := interKeys (es.map (fun p => p.1)) (ps.map (fun p => p.1))
      let absolute_emissionen := years.map (fun year =>
        match lookupVal es year, lookupVal ps year with
        | some emissions, some population => some (emissions * (population : ℚ))
        | _, _ => none)
      (country, years.zip absolute_emissionen) ::
        plot_absolut_co2_emissions co2_data pop_data rest
    | _, _ => plot_absolut_co2_emissions co2_data pop_data rest

/-- plot_co2_emission_changes: first difference over sorted years with `None`
coerced to 0; first component is the plotted series, second the countries the
else-branch warns about. -/
def plot_co2_emission_changes (co2_data : EmisTable) :
    List (String × String) → List (String × Series ℚ) × List String
  | [] => ([], [])
  | (country, _color) :: rest =>
    let acc := plot_co2_emission_changes co2_data rest
    match dget co2_data country with
    | some series =>
      let years := sortKeys series
      let emissions := years.map (fun year => coerce0 (lookupVal series year))
      let yearly_changes := diffs emissions
      let change_years := years.drop 1
      ((country, change_years.zip yearly_changes) :: acc.1, acc.2)
    | none => (acc.1, country :: acc.2)

/-- plot_co2_emission_change_change: second difference, computed WITHOUT the
`None`-to-0 coercion, so a `None` value raises `TypeError` out of the whole
call. -/
def plot_co2_emission_change_change (co2_data : EmisTable) :
    List (String × String) → Except String (List (String × Series ℚ))
  | [] => Except.ok []
  | (country, _color) :: rest =>
    match dget co2_data country with
    | some series =>
      let years := sortKeys series
      let emissions := years.map (fun year => lookupVal series year)
      do
        let first_alternation ← diffsOpt emissions
        let second_alternation := diffs first_alternation
        let years_second_alternation := years.drop 2
        let plots ← plot_co2_emission_change_change co2_data rest
        pure ((country, years_second_alternation.zip second_alternation) :: plots)
    | none => plot_co2_emission_change_change co2_data rest

/-! Concrete inputs used by the scenario claims. -/

/-- Population rows of the Poland scenario from the spec. -/
def polandPopRows : List PopRow :=
  [⟨"Poland", "2019", "38000000"⟩, ⟨"Poland", "2020", "37800000"⟩]

/-- Emissions rows of the Poland scenario from the spec (the 2020 cell is
blank). -/
def polandEmisRows : List EmisRow :=
  [⟨"Poland", "2019", "8.5"⟩, ⟨"Poland", "2020", ""⟩]

/-- The emissions table read for the Poland scenario. -/
def polandCO2 : EmisTable := lese_emissionen (.many ["Poland"]) polandEmisRows

/-- The population table read for the Poland scenario. -/
def polandPop : PopTable := lese_energy polandPopRows

/-- A three-year series for Poland whose middle year has a blank emissions
cell. -/
def gapEmisRows : List EmisRow :=
  [⟨"Poland", "2019", "8.5"⟩, ⟨"Poland", "2020", ""⟩, ⟨"Poland", "2021", "3.0"⟩]

/-- An emissions source whose single row for the country has an unparseable
year cell. -/
def badYearRows : List EmisRow := [⟨"Cdata", "20X0", "1.0"⟩]

/-! Dictionary lemmas. -/

theorem dget_dset {K V : Type} [DecidableEq K] (d : List (K × V)) (k k' : K)
    (v : V) : dget (dset d k v) k' = if k = k' then some v else dget d k' := by
  induction d with
  | nil => by_cases h : k = k' <;> simp [dget, dset, h]
  | cons p rest ih =>
    obtain ⟨k0, v0⟩ := p
    by_cases h0 : k0 = k
    · subst h0
      by_cases h1 : k0 = k' <;> simp [dget, dset, h1]
    · by_cases h1 : k0 = k'
      · subst h1
        have hk : ¬ k = k0 := fun h => h0 h.symm
        simp [dget, dset, h0, hk]
      · simp [dget, dset, h0, h1, ih]

theorem dget_dset_self {K V : Type} [DecidableEq K] (d : List (K × V)) (k : K)
    (v : V) : dget (dset d k v) k = some v := by
  simp [dget_dset]

theorem dget_dset_ne {K V : Type} [DecidableEq K] (d : List (K × V))
    (k k' : K) (v : V) (h : k ≠ k') :
    dget (dset d k v) k' = dget d k' := by
  simp [dget_dset, h]

theorem keys_dset {K V : Type} [DecidableEq K] (d : List (K × V)) (k : K)
    (v : V) :
    (dset d k v).map Prod.fst =
      if k ∈ d.map Prod.fst then d.map Prod.fst else d.map Prod.fst ++ [k] := by
  induction d with
  | nil => simp [dset]
  | cons p rest ih =>
    obtain ⟨k0, v0⟩ := p
    by_cases h0 : k0 = k
    · subst h0
      simp [dset]
    · have h0' : ¬ k = k0 := fun h => h0 h.symm
      by_cases h1 : k ∈ rest.map Prod.fst <;>
        simp [dset, h0, h0', ih, h1]

theorem mem_keys_dset {K V : Type} [DecidableEq K] (d : List (K × V))
    (k x : K) (v : V) :
    x ∈ (dset d k v).map Prod.fst ↔ x = k ∨ x ∈ d.map Prod.fst := by
  rw [keys_dset]
  by_cases h : k ∈ d.map Prod.fst
  · rw [if_pos h]
    constructor
    · exact fun hx => Or.inr hx
    · rintro (rfl | hx)
      · exact h
      · exact hx
  · rw [if_neg h, List.mem_append, List.mem_singleton]
    exact or_comm

theorem nodup_keys_dset {K V : Type} [DecidableEq K] (d : List (K × V))
    (k : K) (v : V) (h : (d.map Prod.fst).Nodup) :
    ((dset d k v).map Prod.fst).Nodup := by
  rw [keys_dset]
  by_cases hm : k ∈ d.map Prod.fst
  · simpa [hm] using h
  · simp [hm, List.nodup_append, h]

theorem dget2_dset2_self {α : Type} (d : List (String × Series α)) (c : String)
    (y : Year) (v : α) : dget2 (dset2 d c y v) c y = some v := by
  unfold dset2 dget2
  cases hdc : dget d c with
  | none => simp [dget_dset_self, dget]
  | some s => simp [dget_dset_self, dget_dset_self s y v]

theorem dget2_dset2_ne {α : Type} (d : List (String × Series α))
    (c c' : String) (y y' : Year) (v : α) (h : c ≠ c' ∨ y ≠ y') :
    dget2 (dset2 d c y v) c' y' = dget2 d c' y' := by
  unfold dset2 dget2
  by_cases hc : c = c'
  · subst hc
    have hy : y ≠ y' := h.resolve_left (fun h0 => h0 rfl)
    cases hdc : dget d c with
    | none => simp [dget_dset_self, dget, hy, hdc]
    | some s => simp [dget_dset_self, dget_dset_ne _ _ _ _ hy, hdc]
  · cases hdc : dget d c <;> simp [dget_dset_ne _ _ _ _ hc]

/-- A key already present in a table survives a two-level assignment. -/
theorem dget_dset2_isSome {α : Type} (d : List (String × Series α))
    (c c' : String) (y : Year) (v : α) (h : (dget d c').isSome) :
    (dget (dset2 d c y v) c').isSome := by
  unfold dset2
  by_cases hc : c = c'
  · subst hc
    cases hdc : dget d c <;> simp [dget_dset_self]
  · cases hdc : dget d c <;> simpa [dget_dset_ne _ _ _ _ hc] using h

theorem dget_dset2_ne {α : Type} (d : List (String × Series α))
    (c c' : String) (y : Year) (v : α) (h : c ≠ c') :
    dget (dset2 d c y v) c' = dget d c' := by
  unfold dset2
  cases hdc : dget d c <;> exact dget_dset_ne _ _ _ _ h

/-! Reader lemmas. -/

theorem lese_energy_concat (rows : List PopRow) (r : PopRow) :
    lese_energy (rows ++ [r]) = lese_energy_step (lese_energy rows) r := by
  unfold lese_energy
  rw [List.foldl_append]
  rfl

theorem lese_emissionen_concat (arg : CountriesArg) (rows : List EmisRow)
    (r : EmisRow) :
    lese_emissionen arg (rows ++ [r]) =
      lese_emissionen_step (countriesOf arg) (lese_emissionen arg rows) r := by
  unfold lese_emissionen
  rw [List.foldl_append]
  rfl

theorem lese_energy_step_skip (bev : PopTable) (row : PopRow)
    (h : pyParseInt row.year = none) : lese_energy_step bev row = bev := by
  simp [lese_energy_step, h]

theorem lese_energy_step_set (bev : PopTable) (row : PopRow) (y : Year)
    (h : pyParseInt row.year = some y) :
    lese_energy_step bev row = dset2 bev row.country y ( _parse_int row.population) := by
  simp [lese_energy_step, h]

theorem lese_emissionen_step_skip_country (countries : List String)
    (d : EmisTable) (row : EmisRow) (h : row.entity ∉ countries) :
    lese_emissionen_step countries d row = d := by
  simp [lese_emissionen_step, h]

theorem lese_emissionen_step_skip_year (countries : List String)
    (d : EmisTable) (row : EmisRow) (h : pyParseInt row.year = none) :
    lese_emissionen_step countries d row = d := by
  by_cases hc : row.entity ∈ countries <;> simp [lese_emissionen_step, h, hc]

theorem lese_emissionen_step_set (countries : List String) (d : EmisTable)
    (row : EmisRow) (y : Year) (hc : row.entity ∈ countries)
    (h : pyParseInt row.year = some y) :
    lese_emissionen_step countries d row =
      dset2 d row.entity y ( _parse_float row.emissions) := by
  simp [lese_emissionen_step, h, hc]

theorem dget_emisInit_aux (cs : List String) (d : EmisTable) (c : String)
    (h : c ∈ cs ∨ dget d c = some []) :
    dget (cs.foldl (fun d c => dset d c []) d) c = some [] := by
  induction cs generalizing d with
  | nil => simpa using h.resolve_left (by simp)
  | cons c0 rest ih =>
    simp only [List.foldl_cons]
    apply ih
    by_cases hc : c0 = c
    · subst hc
      exact Or.inr (dget_dset_self d c0 [])
    · rcases h with h | h
      · rcases List.mem_cons.mp h with rfl | h
        · exact absurd rfl hc
        · exact Or.inl h
      · exact Or.inr (by rw [dget_dset_ne _ _ _ _ hc, h])

/-- Every requested country starts out mapped to the empty series. -/
theorem dget_emisInit (cs : List String) (c : String) (h : c ∈ cs) :
    dget (emisInit cs) c = some [] :=
  dget_emisInit_aux cs [] c (Or.inl h)

/-- Every value of the initial dict is the empty series. -/
theorem emisInit_values_nil_aux (cs : List String) (d : EmisTable)
    (hd : ∀ c s, dget d c = some s → s = []) :
    ∀ c s, dget (cs.foldl (fun d c => dset d c []) d) c = some s → s = [] := by
  induction cs generalizing d with
  | nil => exact hd
  | cons c0 rest ih =>
    simp only [List.foldl_cons]
    apply ih
    intro c s hs
    by_cases hc : c0 = c
    · subst hc
      rw [dget_dset_self] at hs
      exact (Option.some_inj.mp hs).symm
    · rw [dget_dset_ne _ _ _ _ hc] at hs
      exact hd c s hs

theorem emisInit_values_nil (cs : List String) :
    ∀ c s, dget (emisInit cs) c = some s → s = [] :=
  emisInit_values_nil_aux cs [] (by intro c s h; simp [dget] at h)

/-- Keys present in the table survive the whole read. -/
theorem dget_lese_emissionen_isSome_aux (countries : List String)
    (rows : List EmisRow) (d : EmisTable) (c : String)
    (h : (dget d c).isSome) :
    (dget (rows.foldl (lese_emissionen_step countries) d) c).isSome := by
  induction rows generalizing d with
  | nil => exact h
  | cons r rest ih =>
    simp only [List.foldl_cons]
    apply ih
    unfold lese_emissionen_step
    by_cases hc : r.entity ∈ countries
    · simp only [hc, if_true]
      cases pyParseInt r.year with
      | none => exact h
      | some y => exact dget_dset2_isSome _ _ _ _ _ h
    · simpa [hc] using h

/-- Every requested country has an entry in the table lese_emissionen
returns. -/
theorem dget_lese_emissionen_isSome (arg : CountriesArg) (rows : List EmisRow)
    (c : String) (h : c ∈ countriesOf arg) :
    (dget (lese_emissionen arg rows) c).isSome := by
  unfold lese_emissionen
  exact dget_lese_emissionen_isSome_aux _ rows _ c
    (by rw [dget_emisInit _ _ h]; rfl)

/-- A requested country none of whose rows appear in the source keeps its
initial empty series. -/
theorem dget_lese_emissionen_no_rows (arg : CountriesArg)
    (rows : List EmisRow) (c : String) (hmem : c ∈ countriesOf arg)
    (h : ∀ r ∈ rows, r.entity ≠ c) :
    dget (lese_emissionen arg rows) c = some [] := by
  unfold lese_emissionen
  have hinit := dget_emisInit (countriesOf arg) c hmem
  generalize emisInit (countriesOf arg) = d at hinit ⊢
  induction rows generalizing d with
  | nil => exact hinit
  | cons r rest ih =>
    simp only [List.foldl_cons]
    apply ih
    · intro r' hr'
      exact h r' (List.mem_cons_of_mem _ hr')
    · unfold lese_emissionen_step
      by_cases hc : r.entity ∈ countriesOf arg
      · simp only [hc, if_true]
        cases pyParseInt r.year with
        | none => exact hinit
        | some y =>
          rw [dget_dset2_ne _ _ _ _ _ (h r (List.mem_cons_self r rest))]
          exact hinit
      · simpa [hc] using hinit

/-- Rows whose country is not requested leave the read unchanged. -/
theorem lese_emissionen_filter (arg : CountriesArg) (rows : List EmisRow) :
    lese_emissionen arg
        (rows.filter (fun r => decide (r.entity ∈ countriesOf arg))) =
      lese_emissionen arg rows := by
  unfold lese_emissionen
  generalize emisInit (countriesOf arg) = d
  induction rows generalizing d with
  | nil => rfl
  | cons r rest ih =>
    by_cases hc : r.entity ∈ countriesOf arg
    · simp only [List.filter_cons, hc, decide_True, List.foldl_cons]
      exact ih _
    · simp only [List.filter_cons, hc, decide_False, List.foldl_cons,
        lese_emissionen_step_skip_country _ _ _ hc]
      exact ih _

/-! Plot-function lemmas. -/

theorem mem_plot_per_capita (d : EmisTable) (cc : List (String × String))
    (c color : String) (series : Series (Option ℚ)) (hcc : (c, color) ∈ cc)
    (hc : dget d c = some series) :
    (c, (sortKeys series).zip
        ((sortKeys series).map (fun year => lookupVal series year))) ∈
      plot_co2_emission_per_capita d cc := by
  induction cc with
  | nil => cases hcc
  | cons p rest ih =>
    obtain ⟨c0, col0⟩ := p
    rcases List.mem_cons.mp hcc with heq | hmem
    · obtain ⟨rfl, rfl⟩ := Prod.mk.injEq .. ▸ heq
      simp only [plot_co2_emission_per_capita, hc]
      exact List.mem_cons_self _ _
    · have htl := ih hmem
      simp only [plot_co2_emission_per_capita]
      cases hdc : dget d c0 with
      | none => exact htl
      | some s => exact List.mem_cons_of_mem _ htl

theorem plot_per_capita_char (d : EmisTable) (cc : List (String × String))
    (c : String) (series : Series (Option ℚ)) (q : Series (Option ℚ))
    (hc : dget d c = some series)
    (hq : (c, q) ∈ plot_co2_emission_per_capita d cc) :
    q = (sortKeys series).zip
        ((sortKeys series).map (fun year => lookupVal series year)) := by
  induction cc with
  | nil => cases hq
  | cons p rest ih =>
    obtain ⟨c0, col0⟩ := p
    simp only [plot_co2_emission_per_capita] at hq
    cases hdc : dget d c0 with
    | none =>
      rw [hdc] at hq
      exact ih hq
    | some s =>
      rw [hdc] at hq
      rcases List.mem_cons.mp hq with heq | hmem
      · have hcc0 : c = c0 := congrArg Prod.fst heq
        subst hcc0
        rw [hc] at hdc
        obtain rfl : series = s := Option.some_inj.mp hdc
        exact congrArg Prod.snd heq
      · exact ih hmem

theorem mem_plot_changes (d : EmisTable) (cc : List (String × String))
    (c color : String) (series : Series (Option ℚ)) (hcc : (c, color) ∈ cc)
    (hc : dget d c = some series) :
    (c, ((sortKeys series).drop 1).zip
        (diffs ((sortKeys series).map
          (fun year => coerce0 (lookupVal series year))))) ∈
      (plot_co2_emission_changes d cc).1 := by
  induction cc with
  | nil => cases hcc
  | cons p rest ih =>
    obtain ⟨c0, col0⟩ := p
    rcases List.mem_cons.mp hcc with heq | hmem
    · obtain ⟨rfl, rfl⟩ := Prod.mk.injEq .. ▸ heq
      simp only [plot_co2_emission_changes, hc]
      exact List.mem_cons_self _ _
    · have htl := ih hmem
      simp only [plot_co2_emission_changes]
      cases hdc : dget d c0 with
      | none => exact htl
      | some s => exact List.mem_cons_of_mem _ htl

theorem plot_changes_char (d : EmisTable) (cc : List (String × String))
    (c : String) (series : Series (Option ℚ)) (q : Series ℚ)
    (hc : dget d c = some series)
    (hq : (c, q) ∈ (plot_co2_emission_changes d cc).1) :
    q = ((sortKeys series).drop 1).zip
        (diffs ((sortKeys series).map
          (fun year => coerce0 (lookupVal series year)))) := by
  induction cc with
  | nil => cases hq
  | cons p rest ih =>
    obtain ⟨c0, col0⟩ := p
    simp only [plot_co2_emission_changes] at hq
    cases hdc : dget d c0 with
    | none =>
      rw [hdc] at hq
      exact ih hq
    | some s =>
      rw [hdc] at hq
      rcases List.mem_cons.mp hq with heq | hmem
      · have hcc0 : c = c0 := congrArg Prod.fst heq
        subst hcc0
        rw [hc] at hdc
        obtain rfl : series = s := Option.some_inj.mp hdc
        exact congrArg Prod.snd heq
      · exact ih hmem

/-- When every plotted country has an entry in the table, the warning branch
of plot_co2_emission_changes never fires. -/
theorem plot_changes_warnings_nil (d : EmisTable)
    (cc : List (String × String)) (h : ∀ p ∈ cc, (dget d p.1).isSome) :
    (plot_co2_emission_changes d cc).2 = [] := by
  induction cc with
  | nil => rfl
  | cons p rest ih =>
    obtain ⟨c0, col0⟩ := p
    have h0 := h (c0, col0) (List.mem_cons_self _ _)
    have htl := ih (fun p hp => h p (List.mem_cons_of_mem _ hp))
    simp only [plot_co2_emission_changes]
    cases hdc : dget d c0 with
    | none => rw [hdc] at h0; cases h0
    | some s => exact htl

theorem mem_plot_absolut (co2 : EmisTable) (pop : PopTable)
    (cc : List (String × String)) (c color : String)
    (es : Series (Option ℚ)) (ps : Series (Option Int))
    (hcc : (c, color) ∈ cc) (hes : dget co2 c = some es)
    (hps : dget pop c = some ps) :
    (c, (interKeys (es.map (fun p => p.1)) (ps.map (fun p => p.1))).zip
        ((interKeys (es.map (fun p => p.1)) (ps.map (fun p => p.1))).map
          (fun year =>
            match lookupVal es year, lookupVal ps year with
            | some emissions, some population =>
                some (emissions * (population : ℚ))
            | _, _ => none))) ∈
      plot_absolut_co2_emissions co2 pop cc := by
  induction cc with
  | nil => cases hcc
  | cons p rest ih =>
    obtain ⟨c0, col0⟩ := p
    rcases List.mem_cons.mp hcc with heq | hmem
    · obtain ⟨rfl, rfl⟩ := Prod.mk.injEq .. ▸ heq
      simp only [plot_absolut_co2_emissions, hes, hps]
      exact List.mem_cons_self _ _
    · have htl := ih hmem
      simp only [plot_absolut_co2_emissions]
      cases hdc : dget co2 c0 with
      | none => exact htl
      | some s =>
        cases hdp : dget pop c0 with
        | none => exact htl
        | some t => exact List.mem_cons_of_mem _ htl

theorem plot_absolut_char (co2 : EmisTable) (pop : PopTable)
    (cc : List (String × String)) (c : String) (q : Series (Option ℚ))
    (hq : (c, q) ∈ plot_absolut_co2_emissions co2 pop cc) :
    ∃ es ps, dget co2 c = some es ∧ dget pop c = some ps ∧
      q = (interKeys (es.map (fun p => p.1)) (ps.map (fun p => p.1))).zip
        ((interKeys (es.map (fun p => p.1)) (ps.map (fun p => p.1))).map
          (fun year =>
            match lookupVal es year, lookupVal ps year with
            | some emissions, some population =>
                some (emissions * (population : ℚ))
            | _, _ => none)) := by
  induction cc with
  | nil => cases hq
  | cons p rest ih =>
    obtain ⟨c0, col0⟩ := p
    simp only [plot_absolut_co2_emissions] at hq
    cases hdc : dget co2 c0 with
    | none =>
      rw [hdc] at hq
      exact ih hq
    | some s =>
      rw [hdc] at hq
      cases hdp : dget pop c0 with
      | none =>
        rw [hdp] at hq
        exact ih hq
      | some t =>
        rw [hdp] at hq
        rcases List.mem_cons.mp hq with heq | hmem
        · have hcc0 : c = c0 := congrArg Prod.fst heq
          subst hcc0
          exact ⟨s, t, hdc, hdp, congrArg Prod.snd heq⟩
        · exact ih hmem

/-- The second-difference chart on a single country whose series is empty:
nothing to subtract, an empty plot, no exception. -/
theorem plot_change_change_empty (d : EmisTable) (c color : String)
    (h : dget d c = some []) :
    plot_co2_emission_change_change d [(c, color)] =
      Except.ok [(c, [])] := by
  simp only [plot_co2_emission_change_change, h]
  rfl

/-! Length and index lemmas for the difference series. -/

theorem diffs_length (vs : List ℚ) : (diffs vs).length = vs.length - 1 := by
  induction vs with
  | nil => rfl
  | cons v1 rest ih =>
    cases rest with
    | nil => rfl
    | cons v2 rest' =>
      simp only [diffs, List.length_cons] at ih ⊢
      omega

theorem sortKeys_length {α : Type} (s : Series α) :
    (sortKeys s).length = s.length := by
  unfold sortKeys
  rw [(List.perm_insertionSort _ _).length_eq, List.length_map]

theorem zip_drop_diffs_get (j : Nat) :
    ∀ (ys : List Year) (vs : List ℚ), ys.length = vs.length →
      j + 1 < ys.length →
      ((ys.drop 1).zip (diffs vs)).get? j =
        some (ys.getD (j + 1) 0, vs.getD (j + 1) 0 - vs.getD j 0) := by
  induction j with
  | zero =>
    intro ys vs hlen hj
    match ys, vs, hlen, hj with
    | y1 :: y2 :: ys', v1 :: v2 :: vs', _, _ => simp [diffs]
  | succ j ih =>
    intro ys vs hlen hj
    match ys, vs, hlen, hj with
    | y1 :: y2 :: ys', v1 :: v2 :: vs', hlen, hj =>
      have hlen' : (y2 :: ys').length = (v2 :: vs').length := by
        simpa using hlen
      have hj' : j + 1 < (y2 :: ys').length := by
        simpa using Nat.lt_of_succ_lt_succ hj
      simpa [diffs, List.getD_cons_succ] using ih (y2 :: ys') (v2 :: vs') hlen' hj'

/-- C4: for every selected country present in the emissions table, the
first-difference series is computed over the sorted years with absent values
coerced to 0: the first year is dropped, the point at index i - 1 pairs
year[i] with value[i] - value[i-1], and for a series with at least two points
the output has exactly one fewer point than the per-capita series. -/
theorem C4_first_difference (co2_data : EmisTable)
    (cc : List (String × String)) (c color : String)
    (series : Series (Option ℚ)) (hcc : (c, color) ∈ cc)
    (hc : dget co2_data c = some series) :
    let years := sortKeys series
    let vals := years.map (fun year => coerce0 (lookupVal series year))
    let pts := (years.drop 1).zip (diffs vals)
    (c, pts) ∈ (plot_co2_emission_changes co2_data cc).1 ∧
    pts.map Prod.fst = years.drop 1 ∧
    (∀ i, 1 ≤ i → i < years.length →
      pts.get? (i - 1) = some (years.getD i 0, vals.getD i 0 - vals.getD (i - 1) 0)) ∧
    (2 ≤ years.length → pts.length + 1 = years.length) ∧
    (∀ pcpts, (c, pcpts) ∈ plot_co2_emission_per_capita co2_data cc →
      2 ≤ pcpts.length → pts.length + 1 = pcpts.length) := by
  intro years vals pts
  have hvals : years.length = vals.length := (List.length_map _ _).symm
  have hdiffs : (diffs vals).length = years.length - 1 := by
    rw [diffs_length, ← hvals]
  have hpts : pts.length = years.length - 1 := by
    show ((years.drop 1).zip (diffs vals)).length = years.length - 1
    rw [List.length_zip, List.length_drop, hdiffs, Nat.min_self]
  refine ⟨mem_plot_changes co2_data cc c color series hcc hc, ?_, ?_, ?_, ?_⟩
  · show ((years.drop 1).zip (diffs vals)).map Prod.fst = years.drop 1
    apply List.map_fst_zip
    rw [List.length_drop, hdiffs]
  · intro i h1 h2
    obtain ⟨j, rfl⟩ : ∃ j, i = j + 1 := ⟨i - 1, by omega⟩
    have h := zip_drop_diffs_get j years vals hvals (by omega)
    show ((years.drop 1).zip (diffs vals)).get? (j + 1 - 1) =
      some (years.getD (j + 1) 0, vals.getD (j + 1) 0 - vals.getD (j + 1 - 1) 0)
    simpa using h
  · intro h2
    omega
  · intro pcpts hpc hlen
    have hchar := plot_per_capita_char co2_data cc c series pcpts hc hpc
    have hplen : pcpts.length = years.length := by
      rw [hchar, List.length_zip, List.length_map, Nat.min_self]
    rw [hplen] at hlen ⊢
    omega

/-- Witness for C4 at a concrete table with an empty series. -/
theorem C4_first_difference_witness :
    (("P" : String), ([] : Series ℚ)) ∈
      (plot_co2_emission_changes [("P", ([] : Series (Option ℚ)))]
        [("P", "c")]).1 :=
  (C4_first_difference [("P", [])] [("P", "c")] "P" "c" []
    (List.mem_cons_self _ _) rfl).1

/-! Intersection-of-years lemmas. -/

theorem mem_interKeys (a b : List Year) (y : Year) :
    y ∈ interKeys a b ↔ y ∈ a ∧ y ∈ b := by
  unfold interKeys
  rw [(List.perm_insertionSort _ _).mem_iff, List.mem_dedup, List.mem_filter]
  simp

theorem sorted_interKeys (a b : List Year) :
    List.Sorted (fun x y : Year => x ≤ y) (interKeys a b) :=
  List.sorted_insertionSort _ _

theorem nodup_interKeys (a b : List Year) : (interKeys a b).Nodup :=
  (List.perm_insertionSort _ _).nodup_iff.mpr (List.nodup_dedup _)

theorem dget_zip_map {V : Type} (ys : List Year) (f : Year → V) (y : Year)
    (hnd : ys.Nodup) (hy : y ∈ ys) :
    dget (ys.zip (ys.map f)) y = some (f y) := by
  induction ys with
  | nil => cases hy
  | cons y0 rest ih =>
    simp only [List.map_cons, List.zip_cons_cons, dget]
    by_cases h0 : y0 = y
    · subst h0
      simp
    · rw [if_neg h0]
      rcases List.mem_cons.mp hy with rfl | hmem
      · exact absurd rfl h0
      · exact ih (List.Nodup.of_cons hnd) hmem

/-- C5: for every country present in both tables, the absolute series ranges
exactly over the sorted intersection of the two year-key sets; its value is
the product of the two operands when both are present and absent when either
is absent; years present in only one table are not emitted. -/
theorem C5_absolute_intersection (co2 : EmisTable) (pop : PopTable)
    (cc : List (String × String)) (c color : String)
    (es : Series (Option ℚ)) (ps : Series (Option Int))
    (hcc : (c, color) ∈ cc) (hes : dget co2 c = some es)
    (hps : dget pop c = some ps) :
    let years := interKeys (es.map (fun p => p.1)) (ps.map (fun p => p.1))
    ∃ pts, (c, pts) ∈ plot_absolut_co2_emissions co2 pop cc ∧
      pts.map Prod.fst = years ∧
      List.Sorted (fun x y : Year => x ≤ y) years ∧
      (∀ y : Year, y ∈ years ↔
        (y ∈ es.map (fun p => p.1) ∧ y ∈ ps.map (fun p => p.1))) ∧
      (∀ y ∈ years, dget pts y =
        some (match lookupVal es y, lookupVal ps y with
          | some emissions, some population =>
              some (emissions * (population : ℚ))
          | _, _ => none)) := by
  intro years
  refine ⟨years.zip (years.map (fun year =>
      match lookupVal es year, lookupVal ps year with
      | some emissions, some population => some (emissions * (population : ℚ))
      | _, _ => none)),
    mem_plot_absolut co2 pop cc c color es ps hcc hes hps, ?_, ?_, ?_, ?_⟩
  · apply List.map_fst_zip
    rw [List.length_map]
  · exact sorted_interKeys _ _
  · exact fun y => mem_interKeys _ _ y
  · intro y hy
    exact dget_zip_map years _ y (nodup_interKeys _ _) hy

/-- Witness for C5 at a one-country table pair with empty series. -/
theorem C5_absolute_intersection_witness :
    (("P" : String), ([] : Series (Option ℚ))) ∈
      plot_absolut_co2_emissions [("P", ([] : Series (Option ℚ)))]
        [("P", ([] : Series (Option Int)))] [("P", "c")] := by
  obtain ⟨pts, hmem, hfst, -, -, -⟩ :=
    C5_absolute_intersection [("P", [])] [("P", [])] [("P", "c")] "P" "c"
      [] [] (List.mem_cons_self _ _) rfl rfl
  have h1 : pts.map Prod.fst = [] := by rw [hfst]; rfl
  have hpts : pts = [] := List.map_eq_nil_iff.mp h1
  rwa [hpts] at hmem

/-- C6: lese_emissionen returns an entry (possibly empty) for every requested
country (a single string or a list), and rows whose country is not requested
contribute nothing to the result. -/
theorem C6_read_emissions_keys (arg : CountriesArg) (rows : List EmisRow) :
    (∀ c ∈ countriesOf arg, ∃ s, dget (lese_emissionen arg rows) c = some s) ∧
    lese_emissionen arg
        (rows.filter (fun r => decide (r.entity ∈ countriesOf arg))) =
      lese_emissionen arg rows := by
  constructor
  · intro c hc
    exact Option.isSome_iff_exists.mp (dget_lese_emissionen_isSome arg rows c hc)
  · exact lese_emissionen_filter arg rows

/-- Witness for C6: a requested country with no matching rows still has an
entry. -/
theorem C6_read_emissions_keys_witness :
    (dget (lese_emissionen (.one "Poland") []) "Poland").isSome = true := by
  obtain ⟨s, hs⟩ := (C6_read_emissions_keys (.one "Poland") []).1 "Poland"
    (List.mem_cons_self _ _)
  rw [hs]
  rfl

/-- C7: get_available_countries is sorted (case-sensitively), deduplicated,
contains exactly the countries appearing in the source, and is independent of
row order. -/
theorem C7_list_countries (rows : List EmisRow) :
    List.Sorted (fun a b : String => a ≤ b) (get_available_countries rows) ∧
    (get_available_countries rows).Nodup ∧
    (∀ r ∈ rows, r.entity ∈ get_available_countries rows) ∧
    (∀ c ∈ get_available_countries rows, ∃ r ∈ rows, r.entity = c) ∧
    (∀ rows' : List EmisRow, rows.Perm rows' →
      get_available_countries rows = get_available_countries rows') := by
  refine ⟨List.sorted_insertionSort _ _,
    (List.perm_insertionSort _ _).nodup_iff.mpr (List.nodup_dedup _),
    ?_, ?_, ?_⟩
  · intro r hr
    unfold get_available_countries
    rw [(List.perm_insertionSort _ _).mem_iff, List.mem_dedup]
    exact List.mem_map_of_mem _ hr
  · intro c hc
    unfold get_available_countries at hc
    rw [(List.perm_insertionSort _ _).mem_iff, List.mem_dedup] at hc
    obtain ⟨r, hr, hrc⟩ := List.mem_map.mp hc
    exact ⟨r, hr, hrc⟩
  · intro rows' hperm
    have hsorted1 : List.Sorted (fun a b : String => a ≤ b)
        (get_available_countries rows) := List.sorted_insertionSort _ _
    have hsorted2 : List.Sorted (fun a b : String => a ≤ b)
        (get_available_countries rows') := List.sorted_insertionSort _ _
    have p1 : List.Perm (get_available_countries rows)
        ((rows.map (fun r => r.entity)).dedup) := List.perm_insertionSort _ _
    have p2 : List.Perm ((rows.map (fun r => r.entity)).dedup)
        ((rows'.map (fun r => r.entity)).dedup) := (hperm.map _).dedup
    have p3 : List.Perm ((rows'.map (fun r => r.entity)).dedup)
        (get_available_countries rows') := (List.perm_insertionSort _ _).symm
    exact List.eq_of_perm_of_sorted ((p1.trans p2).trans p3) hsorted1 hsorted2

/-- Witness for C7: two row orders of the same source give the same country
list. -/
theorem C7_list_countries_witness :
    get_available_countries [⟨"X", "1", "1"⟩, ⟨"X", "2", "2"⟩] =
      get_available_countries [⟨"X", "2", "2"⟩, ⟨"X", "1", "1"⟩] :=
  (C7_list_countries [⟨"X", "1", "1"⟩, ⟨"X", "2", "2"⟩]).2.2.2.2
    [⟨"X", "2", "2"⟩, ⟨"X", "1", "1"⟩] (List.Perm.swap _ _ _)

/-- C1 (code bug): on a series containing an absent value the
second-difference chart raises TypeError out of the whole call — it never
coerces `None` to 0, unlike the first-difference chart — instead of
producing the claimed twice-differenced series. -/
theorem C1_second_difference_raises :
    plot_co2_emission_change_change
      (lese_emissionen (.many ["Poland"]) gapEmisRows)
      [("Poland", "#89b4fa")] = Except.error "TypeError" := rfl

/-- C2 counterexample: the absolute series of the Poland scenario is not the
claimed single-entry series; the year 2020 is emitted (as absent) rather than
dropped. -/
theorem C2_absolute_not_single :
    plot_absolut_co2_emissions polandCO2 polandPop [("Poland", "#89b4fa")] ≠
      [("Poland", [((2019 : Year), some (323000000 : ℚ))])] := by
  intro h
  have h1 : (plot_absolut_co2_emissions polandCO2 polandPop
      [("Poland", "#89b4fa")]).map (fun p => p.2.map (fun q => q.1)) =
      [[(2019 : Year), 2020]] := rfl
  rw [h] at h1
  exact absurd h1 (by decide)

/-- C2 amended: on the Poland scenario the per-capita series is
{2019: 8.5, 2020: absent}, the absolute series is
{2019: 323000000, 2020: absent} (2020 is emitted as absent because the
intersection is taken over year keys), and the first-difference series is
{2020: -8.5}. -/
theorem C2_amended_scenario :
    dget polandCO2 "Poland" =
      some [((2019 : Year), some (8.5 : ℚ)), (2020, none)] ∧
    plot_co2_emission_per_capita polandCO2 [("Poland", "#89b4fa")] =
      [("Poland", [((2019 : Year), some (8.5 : ℚ)), (2020, none)])] ∧
    plot_absolut_co2_emissions polandCO2 polandPop [("Poland", "#89b4fa")] =
      [("Poland", [((2019 : Year), some (323000000 : ℚ)), (2020, none)])] ∧
    plot_co2_emission_changes polandCO2 [("Poland", "#89b4fa")] =
      ([("Poland", [((2020 : Year), (-8.5 : ℚ))])], []) := by
  refine ⟨rfl, rfl, ?_, ?_⟩
  · have h : plot_absolut_co2_emissions polandCO2 polandPop
        [("Poland", "#89b4fa")] =
        [("Poland", [((2019 : Year),
          some ((8.5 : ℚ) * ((38000000 : Int) : ℚ))), (2020, none)])] := rfl
    rw [h]
    norm_num
  · have h : plot_co2_emission_changes polandCO2 [("Poland", "#89b4fa")] =
        ([("Poland", [((2020 : Year), (0 : ℚ) - (8.5 : ℚ))])], []) := rfl
    rw [h]
    norm_num

/-- C3 counterexample: a requested country with no rows at all produces NO
warning from the first-difference chart, although the claim asserts one is
surfaced. -/
theorem C3_no_warning_surfaced :
    (plot_co2_emission_changes
      (lese_emissionen (.many ["Atlantis"]) polandEmisRows)
      [("Atlantis", "#89b4fa")]).2 = [] := rfl

/-- C3 amended: a selected country with no matching rows yields an empty
series in every chart with no exception raised, but no warning is surfaced:
lese_emissionen gives every requested country an (empty) entry, and the
warning branch of the first-difference chart fires only for countries missing
from the table entirely; the other charts have no warning mechanism. -/
theorem C3_empty_series_no_warning (selected : List String)
    (rows : List EmisRow) (cc : List (String × String)) (pop : PopTable)
    (c color : String)
    (hsel : ∀ p ∈ cc, p.1 ∈ selected)
    (hc : (c, color) ∈ cc)
    (hnodata : ∀ r ∈ rows, r.entity ≠ c) :
    dget (lese_emissionen (.many selected) rows) c = some [] ∧
    (c, ([] : Series (Option ℚ))) ∈
      plot_co2_emission_per_capita (lese_emissionen (.many selected) rows) cc ∧
    (c, ([] : Series ℚ)) ∈
      (plot_co2_emission_changes (lese_emissionen (.many selected) rows) cc).1 ∧
    (plot_co2_emission_changes (lese_emissionen (.many selected) rows) cc).2 = [] ∧
    plot_co2_emission_change_change (lese_emissionen (.many selected) rows)
      [(c, color)] = Except.ok [(c, [])] ∧
    (∀ pts, (c, pts) ∈ plot_absolut_co2_emissions
        (lese_emissionen (.many selected) rows) pop cc → pts = []) := by
  have hcsel : c ∈ selected := hsel (c, color) hc
  have hdc : dget (lese_emissionen (.many selected) rows) c = some [] :=
    dget_lese_emissionen_no_rows (.many selected) rows c hcsel hnodata
  refine ⟨hdc, ?_, ?_, ?_, ?_, ?_⟩
  · exact mem_plot_per_capita _ cc c color [] hc hdc
  · exact mem_plot_changes _ cc c color [] hc hdc
  · exact plot_changes_warnings_nil _ cc (fun p hp =>
      dget_lese_emissionen_isSome (.many selected) rows p.1 (hsel p hp))
  · exact plot_change_change_empty _ c color hdc
  · intro pts hpts
    obtain ⟨es, ps, hes, hps, hq⟩ := plot_absolut_char _ pop cc c pts hpts
    rw [hdc] at hes
    obtain rfl : ([] : Series (Option ℚ)) = es := Option.some_inj.mp hes
    exact hq.trans rfl

/-- Witness for C3 at the Atlantis scenario. -/
theorem C3_empty_series_no_warning_witness :
    dget (lese_emissionen (.many ["Atlantis"]) polandEmisRows) "Atlantis" =
      some [] ∧
    (plot_co2_emission_changes
      (lese_emissionen (.many ["Atlantis"]) polandEmisRows)
      [("Atlantis", "#b4befe")]).2 = [] := by
  have h := C3_empty_series_no_warning ["Atlantis"] polandEmisRows
    [("Atlantis", "#b4befe")] [] "Atlantis" "#b4befe"
    (by decide) (by decide) (by decide)
  exact ⟨h.1, h.2.2.2.1⟩

/-- C10: list_countries performs no year validation: a country all of whose
rows have unparseable year cells still appears in the country listing, while
reading its emissions gives an empty series. -/
theorem C10_no_year_validation :
    pyParseInt "20X0" = none ∧
    "Cdata" ∈ get_available_countries badYearRows ∧
    lese_emissionen (.many ["Cdata"]) badYearRows = [("Cdata", [])] := by
  refine ⟨rfl, ?_, rfl⟩
  decide

/-- C8: a row whose year cell does not parse is skipped entirely (the read of
the remaining rows is unchanged), while a row with a valid year records the
optionally-parsed value — absent for an empty or unparseable cell; the reads
are total, so neither case raises. -/
theorem C8_row_parsing (pre post : List PopRow) (row : PopRow)
    (epre epost : List EmisRow) (erow : EmisRow) (arg : CountriesArg) :
    (pyParseInt row.year = none →
      lese_energy (pre ++ row :: post) = lese_energy (pre ++ post)) ∧
    (∀ y, pyParseInt row.year = some y →
      dget2 (lese_energy (pre ++ [row])) row.country y =
        some ( _parse_int row.population)) ∧
    (pyParseInt erow.year = none →
      lese_emissionen arg (epre ++ erow :: epost) =
        lese_emissionen arg (epre ++ epost)) ∧
    (∀ y, pyParseInt erow.year = some y → erow.entity ∈ countriesOf arg →
      dget2 (lese_emissionen arg (epre ++ [erow])) erow.entity y =
        some ( _parse_float erow.emissions)) ∧
    _parse_int "" = none ∧ _parse_float "" = none := by
  refine ⟨?_, ?_, ?_, ?_, rfl, rfl⟩
  · intro h
    unfold lese_energy
    rw [List.foldl_append, List.foldl_cons, lese_energy_step_skip _ _ h,
      ← List.foldl_append]
  · intro y h
    rw [lese_energy_concat, lese_energy_step_set _ _ _ h]
    exact dget2_dset2_self _ _ _ _
  · intro h
    unfold lese_emissionen
    rw [List.foldl_append, List.foldl_cons,
      lese_emissionen_step_skip_year _ _ _ h, ← List.foldl_append]
  · intro y hy hcin
    rw [lese_emissionen_concat, lese_emissionen_step_set _ _ _ _ hcin hy]
    exact dget2_dset2_self _ _ _ _

/-- Witness for C8: a bad year skips the row; an empty value cell records an
absent entry in both readers. -/
theorem C8_row_parsing_witness :
    lese_energy [⟨"P", "20x9", "1"⟩] = lese_energy [] ∧
    dget2 (lese_energy [⟨"P", "2019", ""⟩]) "P" 2019 = some none ∧
    dget2 (lese_emissionen (.one "P") [⟨"P", "2019", ""⟩]) "P" 2019 =
      some none := by
  refine ⟨?_, ?_, ?_⟩
  · exact (C8_row_parsing [] [] ⟨"P", "20x9", "1"⟩ [] [] ⟨"P", "2019", ""⟩
      (.one "P")).1 rfl
  · exact (C8_row_parsing [] [] ⟨"P", "2019", ""⟩ [] [] ⟨"P", "2019", ""⟩
      (.one "P")).2.1 2019 rfl
  · exact (C8_row_parsing [] [] ⟨"P", "2019", ""⟩ [] [] ⟨"P", "2019", ""⟩
      (.one "P")).2.2.2.1 2019 rfl (List.mem_cons_self _ _)

/-! Nodup and last-write-wins lemmas for the readers. -/

theorem nodup_values_dset2 {α : Type} (d : List (String × Series α))
    (c : String) (y : Year) (v : α)
    (h : ∀ c' s, dget d c' = some s → (s.map Prod.fst).Nodup) :
    ∀ c' s, dget (dset2 d c y v) c' = some s → (s.map Prod.fst).Nodup := by
  intro c' s hs
  unfold dset2 at hs
  cases hdc : dget d c with
  | none =>
    rw [hdc, dget_dset] at hs
    by_cases hcc : c = c'
    · rw [if_pos hcc] at hs
      obtain rfl : [(y, v)] = s := Option.some_inj.mp hs
      simp
    · rw [if_neg hcc] at hs
      exact h c' s hs
  | some s0 =>
    rw [hdc, dget_dset] at hs
    by_cases hcc : c = c'
    · rw [if_pos hcc] at hs
      obtain rfl : dset s0 y v = s := Option.some_inj.mp hs
      exact nodup_keys_dset _ _ _ (h c s0 hdc)
    · rw [if_neg hcc] at hs
      exact h c' s hs

theorem lese_energy_nodup_aux (rows : List PopRow) (d : PopTable)
    (hd : ∀ c s, dget d c = some s → (s.map Prod.fst).Nodup) :
    ∀ c s, dget (rows.foldl lese_energy_step d) c = some s →
      (s.map Prod.fst).Nodup := by
  induction rows generalizing d with
  | nil => exact hd
  | cons r rest ih =>
    simp only [List.foldl_cons]
    apply ih
    unfold lese_energy_step
    cases hp : pyParseInt r.year with
    | none => exact hd
    | some y => exact nodup_values_dset2 _ _ _ _ hd

theorem lese_emissionen_nodup_aux (countries : List String)
    (rows : List EmisRow) (d : EmisTable)
    (hd : ∀ c s, dget d c = some s → (s.map Prod.fst).Nodup) :
    ∀ c s, dget (rows.foldl (lese_emissionen_step countries) d) c = some s →
      (s.map Prod.fst).Nodup := by
  induction rows generalizing d with
  | nil => exact hd
  | cons r rest ih =>
    simp only [List.foldl_cons]
    apply ih
    unfold lese_emissionen_step
    by_cases hin : r.entity ∈ countries
    · simp only [hin, if_true]
      cases hp : pyParseInt r.year with
      | none => exact hd
      | some y => exact nodup_values_dset2 _ _ _ _ hd
    · simpa [hin] using hd

theorem dget2_emisInit (cs : List String) (c : String) (y : Year) :
    dget2 (emisInit cs) c y = none := by
  unfold dget2
  cases h : dget (emisInit cs) c with
  | none => rfl
  | some s =>
    have hnil := emisInit_values_nil cs c s h
    subst hnil
    rfl

theorem lese_energy_lastWrite (c : String) (y : Year) (rows : List PopRow) :
    ((rows.filter
        (fun r => r.country == c && pyParseInt r.year == some y)) = [] →
      dget2 (lese_energy rows) c y = none) ∧
    (∀ r0, (rows.filter
        (fun r => r.country == c && pyParseInt r.year == some y)).getLast? =
          some r0 →
      dget2 (lese_energy rows) c y = some ( _parse_int r0.population)) := by
  induction rows using List.reverseRecOn with
  | nil => exact ⟨fun _ => rfl, fun r0 h => by cases h⟩
  | append_singleton rs r ih =>
    rw [List.filter_append]
    constructor
    · intro h
      obtain ⟨h1, h2⟩ := List.append_eq_nil.mp h
      rw [lese_energy_concat]
      cases hp : pyParseInt r.year with
      | none =>
        rw [lese_energy_step_skip _ _ hp]
        exact ih.1 h1
      | some y0 =>
        rw [lese_energy_step_set _ _ _ hp]
        have hpred : ¬ (r.country == c && pyParseInt r.year == some y) = true := by
          intro hpr
          simp [List.filter_cons, hpr] at h2
        have hne : r.country ≠ c ∨ y0 ≠ y := by
          rcases eq_or_ne r.country c with hrc | hrc
          · rcases eq_or_ne y0 y with hyy | hyy
            · exact absurd (by rw [hrc, hp, hyy]; simp) hpred
            · exact Or.inr hyy
          · exact Or.inl hrc
        rw [dget2_dset2_ne _ _ _ _ _ _ hne]
        exact ih.1 h1
    · intro r0 h
      by_cases hpred : (r.country == c && pyParseInt r.year == some y) = true
      · have hfr : List.filter
            (fun r => r.country == c && pyParseInt r.year == some y) [r] =
            [r] := by
          simp [List.filter_cons, hpred]
        rw [hfr, List.getLast?_concat] at h
        obtain rfl : r = r0 := Option.some_inj.mp h
        have hrc : r.country = c := by
          have := (Bool.and_eq_true _ _).mp hpred
          exact beq_iff_eq.mp this.1
        have hy : pyParseInt r.year = some y := by
          have := (Bool.and_eq_true _ _).mp hpred
          exact beq_iff_eq.mp this.2
        rw [lese_energy_concat, lese_energy_step_set _ _ _ hy, hrc]
        exact dget2_dset2_self _ _ _ _
      · have hfr : List.filter
            (fun r => r.country == c && pyParseInt r.year == some y) [r] =
            [] := by
          simp only [List.filter_cons, List.filter_nil]
          rw [if_neg hpred]
        rw [hfr, List.append_nil] at h
        rw [lese_energy_concat]
        cases hp : pyParseInt r.year with
        | none =>
          rw [lese_energy_step_skip _ _ hp]
          exact ih.2 r0 h
        | some y0 =>
          rw [lese_energy_step_set _ _ _ hp]
          have hne : r.country ≠ c ∨ y0 ≠ y := by
            rcases eq_or_ne r.country c with hrc | hrc
            · rcases eq_or_ne y0 y with hyy | hyy
              · exact absurd (by rw [hrc, hp, hyy]; simp) hpred
              · exact Or.inr hyy
            · exact Or.inl hrc
          rw [dget2_dset2_ne _ _ _ _ _ _ hne]
          exact ih.2 r0 h

theorem lese_emissionen_lastWrite (arg : CountriesArg) (c : String) (y : Year)
    (hcin : c ∈ countriesOf arg) (rows : List EmisRow) :
    ((rows.filter
        (fun r => r.entity == c && pyParseInt r.year == some y)) = [] →
      dget2 (lese_emissionen arg rows) c y = none) ∧
    (∀ r0, (rows.filter
        (fun r => r.entity == c && pyParseInt r.year == some y)).getLast? =
          some r0 →
      dget2 (lese_emissionen arg rows) c y =
        some ( _parse_float r0.emissions)) := by
  induction rows using List.reverseRecOn with
  | nil => exact ⟨fun _ => dget2_emisInit _ _ _, fun r0 h => by cases h⟩
  | append_singleton rs r ih =>
    rw [List.filter_append]
    constructor
    · intro h
      obtain ⟨h1, h2⟩ := List.append_eq_nil.mp h
      rw [lese_emissionen_concat]
      by_cases hin : r.entity ∈ countriesOf arg
      · cases hp : pyParseInt r.year with
        | none =>
          rw [lese_emissionen_step_skip_year _ _ _ hp]
          exact ih.1 h1
        | some y0 =>
          rw [lese_emissionen_step_set _ _ _ _ hin hp]
          have hpred : ¬ (r.entity == c && pyParseInt r.year == some y) = true := by
            intro hpr
            simp [List.filter_cons, hpr] at h2
          have hne : r.entity ≠ c ∨ y0 ≠ y := by
            rcases eq_or_ne r.entity c with hrc | hrc
            · rcases eq_or_ne y0 y with hyy | hyy
              · exact absurd (by rw [hrc, hp, hyy]; simp) hpred
              · exact Or.inr hyy
            · exact Or.inl hrc
          rw [dget2_dset2_ne _ _ _ _ _ _ hne]
          exact ih.1 h1
      · rw [lese_emissionen_step_skip_country _ _ _ hin]
        exact ih.1 h1
    · intro r0 h
      by_cases hpred : (r.entity == c && pyParseInt r.year == some y) = true
      · have hrc : r.entity = c := by
          have hand := (Bool.and_eq_true _ _).mp hpred
          exact beq_iff_eq.mp hand.1
        have hy : pyParseInt r.year = some y := by
          have hand := (Bool.and_eq_true _ _).mp hpred
          exact beq_iff_eq.mp hand.2
        have hfr : List.filter
            (fun r => r.entity == c && pyParseInt r.year == some y) [r] =
            [r] := by
          simp [List.filter_cons, hpred]
        rw [hfr, List.getLast?_concat] at h
        obtain rfl : r = r0 := Option.some_inj.mp h
        have hin : r.entity ∈ countriesOf arg := by rw [hrc]; exact hcin
        rw [lese_emissionen_concat, lese_emissionen_step_set _ _ _ _ hin hy,
          hrc]
        exact dget2_dset2_self _ _ _ _
      · have hfr : List.filter
            (fun r => r.entity == c && pyParseInt r.year == some y) [r] =
            [] := by
          simp only [List.filter_cons, List.filter_nil]
          rw [if_neg hpred]
        rw [hfr, List.append_nil] at h
        rw [lese_emissionen_concat]
        by_cases hin : r.entity ∈ countriesOf arg
        · cases hp : pyParseInt r.year with
          | none =>
            rw [lese_emissionen_step_skip_year _ _ _ hp]
            exact ih.2 r0 h
          | some y0 =>
            rw [lese_emissionen_step_set _ _ _ _ hin hp]
            have hne : r.entity ≠ c ∨ y0 ≠ y := by
              rcases eq_or_ne r.entity c with hrc | hrc
              · rcases eq_or_ne y0 y with hyy | hyy
                · exact absurd (by rw [hrc, hp, hyy]; simp) hpred
                · exact Or.inr hyy
              · exact Or.inl hrc
            rw [dget2_dset2_ne _ _ _ _ _ _ hne]
            exact ih.2 r0 h
        · rw [lese_emissionen_step_skip_country _ _ _ hin]
          exact ih.2 r0 h

/-- C9: no series built by the readers contains a duplicate year, and when a
source repeats a (country, year) pair the stored value comes from the last
such row in insertion order. -/
theorem C9_last_write_wins (rows : List PopRow) (erows : List EmisRow)
    (arg : CountriesArg) (c : String) (y : Year) :
    (∀ s, dget (lese_energy rows) c = some s → (s.map Prod.fst).Nodup) ∧
    (∀ r0, (rows.filter
        (fun r => r.country == c && pyParseInt r.year == some y)).getLast? =
          some r0 →
      dget2 (lese_energy rows) c y = some ( _parse_int r0.population)) ∧
    (∀ s, dget (lese_emissionen arg erows) c = some s →
      (s.map Prod.fst).Nodup) ∧
    (c ∈ countriesOf arg →
      ∀ r0, (erows.filter
          (fun r => r.entity == c && pyParseInt r.year == some y)).getLast? =
            some r0 →
        dget2 (lese_emissionen arg erows) c y =
          some ( _parse_float r0.emissions)) := by
  refine ⟨?_, (lese_energy_lastWrite c y rows).2, ?_, ?_⟩
  · intro s hs
    exact lese_energy_nodup_aux rows [] (by intro c' s' h; cases h) c s hs
  · intro s hs
    exact lese_emissionen_nodup_aux (countriesOf arg) erows
      (emisInit (countriesOf arg))
      (fun c' s' h => by rw [emisInit_values_nil _ c' s' h]; exact List.nodup_nil)
      c s hs
  · intro hcin r0 h
    exact (lese_emissionen_lastWrite arg c y hcin erows).2 r0 h

/-- Witness for C9: with two rows for the same country and year, the stored
value is the second row's. -/
theorem C9_last_write_wins_witness :
    dget2 (lese_energy [⟨"P", "2019", "1"⟩, ⟨"P", "2019", "2"⟩]) "P" 2019 =
      some (some 2) :=
  (C9_last_write_wins [⟨"P", "2019", "1"⟩, ⟨"P", "2019", "2"⟩] [] (.one "P")
    "P" 2019).2.1 ⟨"P", "2019", "2"⟩ (by decide)
